import Mathlib

/-!
Verification development for the hug interface-adaptation engine
(`hug/types.py`, `hug/introspect.py`, `hug/interface.py`).

Python values flowing through the coercion and validation layers are
modelled by the inductive `Value`; fallible Python code returns
`Except Value α`, the error carrying the payload that the caller
(`HTTP.validate`) would extract from the raised exception
(`error.reasons or str(error.message)` for `InvalidTypeData`,
`error.args[0]` or `str(error)` otherwise).  Dictionaries are modelled
as association lists with Python `dict` semantics (`dinsert` replaces
an existing key in place, otherwise appends; iteration order is
insertion order).
-/

namespace Hug

/-- A Python value as used by the coercion/validation layers:
`None`, booleans, integers, strings, lists, tuples and string-keyed
dictionaries.  (Floats and transport objects do not occur in the
verified claims and are not modelled.) -/
inductive Value where
  | none
  | bool (b : Bool)
  | int (n : Int)
  | str (s : String)
  | list (xs : List Value)
  | tuple (xs : List Value)
  | dict (d : List (String × Value))

/-- Python truthiness (`bool(v)`) for the modelled values. -/
def truthy : Value → Bool
  | .none => false
  | .bool b => b
  | .int n => n ≠ 0
  | .str s => s ≠ ""
  | .list xs => !xs.isEmpty
  | .tuple xs => !xs.isEmpty
  | .dict d => !d.isEmpty

/-- `v is True`: identity with the `True` singleton.  (Note `1 is True`
is false in Python, which the constructor distinction reflects.) -/
def Value.isTrueSingleton : Value → Bool
  | .bool true => true
  | _ => false

/-- `v` has exact type `list` (Python `isinstance(v, list)` for the
modelled values, which include no list subclasses). -/
def Value.isList : Value → Bool
  | .list _ => true
  | _ => false

/-- Dictionary lookup on an association list (first, hence unique,
occurrence of the key — Python dicts hold each key once). -/
def dlookup (k : String) : List (String × α) → Option α
  | [] => Option.none
  | (k', v) :: rest => if k = k' then some v else dlookup k rest

/-- Python `d[k] = v`: replace the value at an existing key in place,
otherwise append the new binding at the end. -/
def dinsert (k : String) (v : α) : List (String × α) → List (String × α)
  | [] => [(k, v)]
  | (k', v') :: rest => if k = k' then (k, v) :: rest else (k', v') :: dinsert k v rest

/-- Python `base.update(upd)`. -/
def dupdate (base upd : List (String × α)) : List (String × α) :=
  upd.foldl (fun acc kv => dinsert kv.1 kv.2 acc) base

/-- The ASCII single-quote character, used by the error messages of
`hug/types.py`. -/
def sq : String := String.singleton (Char.ofNat 39)

/-! ### Python string primitives

The string methods the coercions rely on (`str.lower`, `str.strip`,
`str.split`), implemented structurally over the character list so that
concrete instances evaluate. -/

/-- Python `str.lower()` (the strings involved are ASCII). -/
def pyLower (s : String) : String := ⟨s.data.map Char.toLower⟩

/-- ASCII whitespace as recognised by Python `str.strip()`. -/
def isSpaceChar (c : Char) : Bool :=
  c = ' ' ∨ c = '\t' ∨ c = '\n' ∨ c = '\r' ∨ c = '\x0b' ∨ c = '\x0c'

/-- Python `str.strip()` with no argument: remove leading and trailing
whitespace. -/
def pyStrip (s : String) : String :=
  ⟨((s.data.dropWhile isSpaceChar).reverse.dropWhile isSpaceChar).reverse⟩

/-- Fuel-indexed worker for `str.split(sep)` over character lists; the
fuel (the input length suffices) only forces termination and never
runs out on a nonempty separator. -/
def splitCharsGo (sep : List Char) : Nat → List Char → List (List Char)
  | 0, cs => [cs]
  | fuel + 1, cs =>
    match cs with
    | [] => [[]]
    | c :: rest =>
      if sep.isPrefixOf cs then
        [] :: splitCharsGo sep fuel (cs.drop sep.length)
      else
        match splitCharsGo sep fuel rest with
        | [] => [[c]]
        | hd :: tl => (c :: hd) :: tl

/-- Python `s.split(sep)` for a nonempty separator `sep`. -/
def pySplit (sep : String) (s : String) : List String :=
  (splitCharsGo sep.data s.data.length s.data).map (fun cs => ⟨cs⟩)

/-- The numeric value of an ASCII digit. -/
def digitVal (c : Char) : Option Nat :=
  if 48 ≤ c.toNat ∧ c.toNat ≤ 57 then some (c.toNat - 48) else Option.none

def digitsToNatGo : Nat → List Char → Option Nat
  | acc, [] => some acc
  | acc, c :: cs =>
    match digitVal c with
    | some d => digitsToNatGo (acc * 10 + d) cs
    | Option.none => Option.none

/-- A nonempty all-digit character list read as a natural number. -/
def digitsToNat : List Char → Option Nat
  | [] => Option.none
  | cs => digitsToNatGo 0 cs

/-- `int(s)` on a string: an optionally signed decimal integer literal
with surrounding whitespace allowed.  (Python additionally accepts
digit-group underscores, which do not occur here.) -/
def pyParseInt (s : String) : Option Int :=
  match (pyStrip s).data with
  | '-' :: rest => (digitsToNat rest).map (fun n => -(n : Int))
  | '+' :: rest => (digitsToNat rest).map (fun n => (n : Int))
  | cs => (digitsToNat cs).map (fun n => (n : Int))

/-! ### hug/types.py -/

/-- `int(v)` restricted to the values that occur here: integers pass
through, booleans become 0/1, strings are parsed as optionally signed
decimal integer literals (surrounding whitespace allowed); everything
else fails.  (Python `int()` also accepts digit-group underscores and
other numeric types, which do not occur in the claims.) -/
def pyInt (v : Value) : Option Int :=
  match v with
  | .int n => some n
  | .bool b => some (if b then 1 else 0)
  | .str s => pyParseInt s
  | _ => Option.none

/-- `number = Accept(int, 'A whole number', 'Invalid whole number provided')`:
the wrapped `int` conversion, every failure rewritten to the fixed
`error_text` (`Accept.__call__` with no `exception_handlers`). -/
def number (v : Value) : Except Value Int :=
  match pyInt v with
  | some n => .ok n
  | Option.none => .error (.str "Invalid whole number provided")

/-- `Multiple.__call__`: `value if isinstance(value, list) else [value]`. -/
def multiple (v : Value) : Value :=
  match v with
  | .list xs => .list xs
  | v => .list [v]

/-- `DelimitedList(using).__call__`:
`value if type(value) in (list, tuple) else value.split(self.using)`.
A value of any other type has no `split` method (AttributeError).
(The source calls the delimiter attribute `using`, a Lean keyword.) -/
def delimited_list (delim : String) (v : Value) : Except Value Value :=
  match v with
  | .list xs => .ok (.list xs)
  | .tuple xs => .ok (.tuple xs)
  | .str s => .ok (.list ((pySplit delim s).map Value.str))
  | _ => .error (.str ("AttributeError: object has no attribute " ++ sq ++ "split" ++ sq))

/-- `SmartBoolean.__call__`.  Booleans, and values `== None, 1, 0`,
return `bool(value)`; otherwise `value.lower()` is compared against the
string forms (a non-string has no `lower`, hence AttributeError); any
other string raises `KeyError('Invalid value passed in for true/false field')`. -/
def smart_boolean (v : Value) : Except Value Value :=
  match v with
  | .bool b => .ok (.bool b)
  | .none => .ok (.bool false)
  | .int n =>
    if n = 1 then .ok (.bool true)
    else if n = 0 then .ok (.bool false)
    else .error (.str ("AttributeError: object has no attribute " ++ sq ++ "lower" ++ sq))
  | .str s =>
    let low := pyLower s
    if low = "true" ∨ low = "t" ∨ low = "1" then .ok (.bool true)
    else if low = "false" ∨ low = "f" ∨ low = "0" ∨ low = "" then .ok (.bool false)
    else .error (.str "KeyError: Invalid value passed in for true/false field")
  | _ => .error (.str ("AttributeError: object has no attribute " ++ sq ++ "lower" ++ sq))

/-- One step of `InlineDictionary`'s generator `item.split(":")` unpacked
into `key, value`: any split that does not yield exactly two pieces
raises ValueError (tuple-unpacking failure). -/
def splitKeyValue (item : String) : Except Value (String × String) :=
  match pySplit ":" item with
  | [k, v] => .ok (k, v)
  | _ => .error (.str "ValueError: unpacking item.split requires exactly 2 values")

/-- The generator feeding `InlineDictionary`'s comprehension: split
each pipe-separated item, stopping at the first item that does not
unpack into exactly a key and a value. -/
def inlineItems : List String → Except Value (List (String × String))
  | [] => .ok []
  | item :: rest =>
    match splitKeyValue item with
    | .error e => .error e
    | .ok kv =>
      match inlineItems rest with
      | .error e => .error e
      | .ok kvs => .ok (kv :: kvs)

/-- Building the comprehension's dictionary from the split items:
each key and value whitespace-stripped (`str.strip()`), inserted in
order. -/
def inlineBuild (pairs : List (String × String)) : List (String × Value) :=
  pairs.foldl (fun acc kv => dinsert (pyStrip kv.1) (.str (pyStrip kv.2)) acc) []

/-- `InlineDictionary.__call__`:
the dict comprehension over `(item.split(":") for item in string.split("|"))`,
keys and values whitespace-stripped. -/
def inline_dictionary (string : String) : Except Value Value :=
  match inlineItems (pySplit "|" string) with
  | .error e => .error e
  | .ok pairs => .ok (.dict (inlineBuild pairs))

/-- `InRange(lower, upper, convert).__call__`: convert first (default
converter is `number`), then reject below the inclusive lower bound or
at/above the exclusive upper bound with the messages of
`hug/types.py` lines 238-241. -/
def inRangeCall (lower upper : Int) (convert : Value → Except Value Int) (v : Value) :
    Except Value Int :=
  match convert v with
  | .error e => .error e
  | .ok value =>
    if value < lower then
      .error (.str (sq ++ toString value ++ sq ++ " is less than the lower limit " ++ toString lower))
    else if upper ≤ value then
      .error (.str (sq ++ toString value ++ sq ++ " reaches the limit of " ++ toString upper))
    else .ok value

/-! ### hug/introspect.py -/

/-- `introspect.arguments`: the first `co_argcount` entries of
`co_varnames`, or `()` when the object has no `__code__`.  The code
object is modelled by its relevant fields. -/
structure CodeObject where
  co_varnames : List String
  co_argcount : Nat
  co_flags : Nat

def arguments (code : CodeObject) : List String :=
  code.co_varnames.take code.co_argcount

/-- `introspect.takes_kwargs` AS WRITTEN: its body reads
`api_function.__code__.co_flags`, but its parameter is named `function`
and no `api_function` exists in any enclosing scope, so every call
fails with a NameError.  (Moreover `introspect.py` line 41 is missing a
closing parenthesis, so the module does not even parse.) -/
def takes_kwargs (_code : CodeObject) : Except Value Bool :=
  .error (.str ("NameError: name " ++ sq ++ "api_function" ++ sq ++ " is not defined"))

/-- `introspect.takes_kargs` AS WRITTEN: same undefined-name slip as
`takes_kwargs`. -/
def takes_kargs (_code : CodeObject) : Except Value Bool :=
  .error (.str ("NameError: name " ++ sq ++ "api_function" ++ sq ++ " is not defined"))

/-- Modelled from the spec: the documented behaviour of
`introspect.takes_kwargs` ("Returns True if the supplied function takes
keyword arguments"), i.e. testing the CO_VARKEYWORDS bit 0x08 of the
function's `co_flags` — what `bool(function.__code__.co_flags & 0x08)`
would compute had the body used its `function` parameter. -/
def takes_kwargs_documented (code : CodeObject) : Bool :=
  code.co_flags &&& 0x08 ≠ 0

/-- Modelled from the spec: the documented behaviour of
`introspect.takes_kargs` (CO_VARARGS bit 0x04). -/
def takes_kargs_documented (code : CodeObject) : Bool :=
  code.co_flags &&& 0x04 ≠ 0

/-! ### hug/interface.py — construction (`Interface.__init__`) -/

/-- The introspectable facts about the wrapped function (`self.spec`)
that `Interface.__init__` consumes. -/
structure FuncSpec where
  /-- `introspect.arguments(self.spec)` -/
  argNames : List String
  /-- `len(self.spec.__defaults__ or ())` -/
  numDefaults : Nat
  /-- `'method' in self.spec.__class__.__name__` -/
  isMethod : Bool
  /-- names among `self.spec.__annotations__` whose annotation exposes a
  `directive` marker (string annotations and plain transformers are the
  other cases and are irrelevant to `required`) -/
  annotationDirectives : List String

/-- `self.required` as computed by `Interface.__init__` (no explicit
`parameters` override): `self.parameters[:-(len(defaults)) or None]`,
then `[1:]` for a bound method. -/
def interfaceRequired (spec : FuncSpec) : List String :=
  let required := spec.argNames.take (spec.argNames.length - spec.numDefaults)
  if spec.isMethod then required.drop 1 else required

/-- The key set of `self.directives` after `Interface.__init__`: the
parameters that name a process-wide defined directive
(`set(self.parameters).intersection(defined_directives)`), plus every
annotation carrying a `directive` marker. -/
def interfaceDirectiveNames (definedDirectives : List String) (spec : FuncSpec) : List String :=
  let used := spec.argNames.filter (fun p => p ∈ definedDirectives)
  spec.annotationDirectives.foldl (fun acc n => if n ∈ acc then acc else acc ++ [n]) used

/-! ### hug/interface.py — HTTP request handling -/

abbrev Params := List (String × Value)
abbrev Errors := List (String × Value)

/-- The per-key loop of `HTTP.validate` (lines 188-202): apply each
input transformation to its parameter when present.  With
`raise_on_invalid` the failure propagates as an exception (`.error`);
otherwise it is caught and recorded in `errors` under the parameter
name, leaving the parameter's old value in place. -/
def applyTransformations (raiseOnInvalid : Bool)
    (ts : List (String × (Value → Except Value Value)))
    (params : Params) (errors : Errors) : Except Value (Params × Errors) :=
  match ts with
  | [] => .ok (params, errors)
  | (key, typeHandler) :: rest =>
    match dlookup key params with
    | Option.none => applyTransformations raiseOnInvalid rest params errors
    | some v =>
      match typeHandler v with
      | .ok v' => applyTransformations raiseOnInvalid rest (dinsert key v' params) errors
      | .error e =>
        if raiseOnInvalid then .error e
        else applyTransformations raiseOnInvalid rest params (errors ++ [(key, e)])

/-- `HTTP.validate` (lines 186-209): per-key transformations, then a
"Required parameter not supplied" error for every required parameter
absent from the (transformed) input, then — only when no error was
recorded — the whole-input `validate` function.  Returns the mutated
input mapping alongside the errors. -/
def validate (raiseOnInvalid : Bool)
    (ts : List (String × (Value → Except Value Value)))
    (required : List String)
    (validateFunction : Option (Params → Errors))
    (params : Params) : Except Value (Params × Errors) :=
  match applyTransformations raiseOnInvalid ts params [] with
  | .error e => .error e
  | .ok (params', errors) =>
    let errors := errors ++
      ((required.filter (fun r => (dlookup r params').isNone)).map
        (fun r => (r, Value.str "Required parameter not supplied")))
    if errors.isEmpty then
      match validateFunction with
      | some f => .ok (params', f params')
      | Option.none => .ok (params', errors)
    else .ok (params', errors)

/-- `HTTP.check_requirements` (lines 231-235): each requirement is
called in order and its conclusion returned as soon as it is truthy
and not the `True` singleton; the requirements are modelled by their
conclusions. -/
def check_requirements (requires : List Value) : Option Value :=
  match requires with
  | [] => Option.none
  | conclusion :: rest =>
    if truthy conclusion && !conclusion.isTrueSingleton then some conclusion
    else check_requirements rest

/-- The formatted payload an output formatter produces: raw bytes, or a
readable stream (`hasattr(data, 'read')`) whose byte content is
`content` and whose derivable size (`os.path.getsize(data.name)` for a
file-backed stream) is `size?`. -/
inductive Payload where
  | bytes (b : List Nat)
  | stream (content : List Nat) (size? : Option Nat)
deriving DecidableEq

/-- An output formatter: the serialisation function plus its
`content_type` (modelled as a constant; the request/response keyword
subset passed by `_arguments` does not affect a pure formatter). -/
structure Formatter where
  format : Value → Payload
  contentType : String

/-- A falcon request as consumed by `HTTP.__call__`: the gathered query
parameters and the optional byte range. -/
structure Request where
  params : Params
  range? : Option (Int × Int)

/-- A falcon response as mutated by `HTTP.__call__`.  `closed_source`
records that the range branch called `data.close()` on the source
stream. -/
structure Response where
  status : String := "200 OK"
  content_type : String := ""
  headers : List (String × String) := []
  data : Option Payload := Option.none
  stream : Option (List Nat) := Option.none
  stream_len : Option Nat := Option.none
  content_range : Option (Int × Int × Nat) := Option.none
  closed_source : Bool := false
deriving DecidableEq

/-- The state of an `HTTP` interface relevant to `__call__`.
Exception handlers and falcon not-found handling are not modelled (no
handlers registered); directives are modelled by their resolved
per-call values. -/
structure HTTPInterface where
  parameters : List String
  required : List String
  raise_on_invalid : Bool
  input_transformations : List (String × (Value → Except Value Value))
  directives : List (String × Value)
  requires : List Value
  has_kwargs : Bool
  validate_function : Option (Params → Errors)
  set_status : Option String
  response_headers : List (String × String)
  outputs : Formatter
  invalid_outputs : Option Formatter
  on_invalid : Option (Value → Value)
  transform : Option (Value → Value)
  function : Params → Value

/-- `HTTP.gather_parameters` for the modelled configurations
(`parse_body` false; the `request`/`response`/`api_version`
pseudo-parameters carry transport objects and are outside the value
model): start from the URL keyword arguments, merge the query
parameters, give a declared `body` parameter `None`, then overwrite
with every directive's resolved value. -/
def gather_parameters (i : HTTPInterface) (req : Request) (kwargs : Params) : Params :=
  let input := dupdate kwargs req.params
  let input := if "body" ∈ i.parameters then dinsert "body" Value.none input else input
  i.directives.foldl (fun ps kv => dinsert kv.1 kv.2 ps) input

/-- Line 284-285: unknown keys are dropped unless the function takes
arbitrary keyword arguments. -/
def filtered_parameters (i : HTTPInterface) (ps : Params) : Params :=
  if i.has_kwargs then ps else ps.filter (fun kv => kv.1 ∈ i.parameters)

/-- `HTTP.transform_data` for function-valued transforms (a type-valued
transform, skipped when the data is already an instance, is not
modelled). -/
def transform_data (i : HTTPInterface) (data : Value) : Value :=
  match i.transform with
  | some t => t data
  | Option.none => data

/-- The response as initialised by lines 256-260: configured headers,
configured status if any, content type from the outputs formatter. -/
def initial_response (i : HTTPInterface) : Response :=
  { headers := i.response_headers,
    status := match i.set_status with | some s => s | Option.none => "200 OK",
    content_type := i.outputs.contentType }

/-- `data.seek(start)` followed by `data.read(length)` on a stream with
byte content `content` (a negative `length` reads to the end, as
Python's `read` does; a negative seek offset would raise and is outside
the modelled domain). -/
def fileRead (content : List Nat) (start length : Int) : List Nat :=
  let rest := content.drop start.toNat
  if length < 0 then rest else rest.take length.toNat

/-- Lines 297-315: payload delivery.  A readable payload with a truthy
size and a requested range is sliced (`end` made absolute if negative,
clamped by `min` to the size), delivered with partial-content status
and a content-range header, and the source closed; otherwise the
stream is attached whole with a length hint when the size is truthy.
Non-readable payloads are assigned directly. -/
def respond_payload (_i : HTTPInterface) (resp : Response) (range? : Option (Int × Int)) :
    Payload → Response
  | .bytes b => { resp with data := some (.bytes b) }
  | .stream content size? =>
    match range?, size? with
    | some (start, stop), some size =>
      if size ≠ 0 then
        let stop1 : Int := if stop < 0 then (size : Int) + stop else stop
        let stop2 : Int := min stop1 (size : Int)
        let length : Int := stop2 - start + 1
        { resp with data := some (.bytes (fileRead content start length)),
                    status := "206 Partial Content",
                    content_range := some (start, stop2, size),
                    closed_source := true }
      else { resp with stream := some content, stream_len := Option.none }
    | _, _ =>
      { resp with stream := some content,
                  stream_len := match size? with
                    | some size => if size ≠ 0 then some size else Option.none
                    | Option.none => Option.none }

/-- Lines 270-282: the validation-failure exit.  The errors dictionary
is wrapped as `{'errors': errors}`, optionally post-processed by
`on_invalid`, the status forced to 400 Bad Request, and the data
serialised by `invalid_outputs` (switching the content type) when
configured, else by `outputs`. -/
def respond_errors (i : HTTPInterface) (resp : Response) (errors : Errors) : Response :=
  let data := Value.dict [("errors", Value.dict errors)]
  let data := match i.on_invalid with | some f => f data | Option.none => data
  match i.invalid_outputs with
  | some io =>
    { resp with status := "400 Bad Request", content_type := io.contentType,
                data := some (io.format data) }
  | Option.none =>
    { resp with status := "400 Bad Request", data := some (i.outputs.format data) }

/-- `HTTP.__call__` (lines 248-317) for the modelled configurations:
requirements first, then gathering, validation (whose exception under
`raise_on_invalid` propagates uncaught, no exception handlers being
registered), the error exit, otherwise the wrapped function on the
filtered input, transform, output formatting and payload delivery.
(The interface-chaining branch for results carrying their own
interface is not modelled: results here are plain values.) -/
def call (i : HTTPInterface) (req : Request) (kwargs : Params) : Except Value Response :=
  match check_requirements i.requires with
  | some conclusion =>
    .ok { initial_response i with data := some (i.outputs.format conclusion) }
  | Option.none =>
    match validate i.raise_on_invalid i.input_transformations i.required
        i.validate_function (gather_parameters i req kwargs) with
    | .error e => .error e
    | .ok (input', errors) =>
      if errors.isEmpty then
        .ok (respond_payload i (initial_response i) req.range?
          (i.outputs.format (transform_data i (i.function (filtered_parameters i input')))))
      else .ok (respond_errors i (initial_response i) errors)

/-! ### Concrete fixtures

Output formatters are external collaborators (§6 of the spec); the
demo formatter below merely tags its input so that distinct inputs
give distinct payloads. -/

def demoFormat : Value → Payload
  | .str s => .bytes (1 :: s.data.map Char.toNat)
  | .bool b => .bytes [2, if b then 1 else 0]
  | .dict d => .bytes [3, d.length]
  | _ => .bytes [0]

def demoFormatter : Formatter := { format := demoFormat, contentType := "application/json" }

/-- A fixture interface: no parameters, no coercions, no requirements;
theorems override individual fields at their use sites. -/
def plainInterface : HTTPInterface :=
  { parameters := [], required := [], raise_on_invalid := false,
    input_transformations := [], directives := [], requires := [],
    has_kwargs := false, validate_function := Option.none, set_status := Option.none,
    response_headers := [], outputs := demoFormatter, invalid_outputs := Option.none,
    on_invalid := Option.none, transform := Option.none,
    function := fun _ => Value.str "ran" }

/-- The `echo(text)` interface of the spec's end-to-end example: one
parameter `text`, required, with a per-parameter coercion `h`,
formatter `F` and wrapped function `f`. -/
def echoInterface (F : Formatter) (f : Params → Value) (h : Value → Except Value Value) :
    HTTPInterface :=
  { plainInterface with
    parameters := ["text"],
    required := ["text"],
    input_transformations := [("text", h)],
    outputs := F,
    function := f }

/-- A formatter producing a 100-byte file-backed stream of derivable
size. -/
def streamFormatter : Formatter :=
  { format := fun _ => .stream (List.range 100) (some 100),
    contentType := "application/octet-stream" }

/-! ## Dictionary lemmas -/

theorem dlookup_dinsert_self (k : String) (v : α) (l : List (String × α)) :
    dlookup k (dinsert k v l) = some v := by
  induction l with
  | nil => simp [dinsert, dlookup]
  | cons hd tl ih =>
    by_cases h : k = hd.1
    · simp [dinsert, dlookup, h]
    · simp [dinsert, dlookup, h, ih]

theorem dlookup_dinsert_ne (k k' : String) (hkk : k ≠ k') (v : α) (l : List (String × α)) :
    dlookup k (dinsert k' v l) = dlookup k l := by
  induction l with
  | nil => simp [dinsert, dlookup, hkk]
  | cons hd tl ih =>
    by_cases h : k' = hd.1
    · subst h
      simp [dinsert, dlookup, hkk]
    · by_cases h2 : k = hd.1 <;> simp [dinsert, dlookup, h, h2, ih]

theorem dlookup_append (k : String) (a b : List (String × α)) :
    dlookup k (a ++ b) = ((dlookup k a).or (dlookup k b)) := by
  induction a with
  | nil => simp [dlookup]
  | cons hd tl ih =>
    by_cases h : k = hd.1 <;> simp [dlookup, h, ih]

theorem dlookup_eq_none_of_forall (k : String) (l : List (String × α))
    (h : ∀ p ∈ l, p.1 ≠ k) : dlookup k l = Option.none := by
  induction l with
  | nil => rfl
  | cons hd tl ih =>
    have h1 : hd.1 ≠ k := h hd (by simp)
    have : k ≠ hd.1 := fun hk => h1 hk.symm
    simp only [dlookup, if_neg this]
    exact ih (fun p hp => h p (by simp [hp]))

theorem dlookup_map_const (k : String) (l : List String) (c : α) (h : k ∈ l) :
    dlookup k (l.map (fun x => (x, c))) = some c := by
  induction l with
  | nil => cases h
  | cons hd tl ih =>
    by_cases hk : k = hd
    · simp [dlookup, hk]
    · have : k ∈ tl := by
        cases h with
        | head => exact absurd rfl hk
        | tail _ h' => exact h'
      simp [dlookup, hk, ih this]

/-! ## Claim theorems -/

/-- C5: for every value accepted by the inner numeric conversion,
`in_range(lower, upper)` returns the converted value exactly when
`lower ≤ value < upper` (lower inclusive, upper exclusive), and fails
with the descriptive message naming the offending value and the
violated bound otherwise; in particular `in_range(0, 10)` accepts 0
and 9 and rejects 10 and -1. -/
theorem inRange_halfOpen (lower upper : Int) (convert : Value → Except Value Int)
    (v : Value) (n : Int) (hconv : convert v = .ok n) :
    (inRangeCall lower upper convert v = .ok n ↔ lower ≤ n ∧ n < upper) ∧
    (n < lower → inRangeCall lower upper convert v =
      .error (.str (sq ++ toString n ++ sq ++ " is less than the lower limit " ++
        toString lower))) ∧
    (lower ≤ n → upper ≤ n → inRangeCall lower upper convert v =
      .error (.str (sq ++ toString n ++ sq ++ " reaches the limit of " ++
        toString upper))) ∧
    inRangeCall 0 10 number (.int 0) = .ok 0 ∧
    inRangeCall 0 10 number (.int 9) = .ok 9 ∧
    (∃ e, inRangeCall 0 10 number (.int 10) = .error e) ∧
    (∃ e, inRangeCall 0 10 number (.int (-1)) = .error e) := by
  refine ⟨?_, ?_, ?_, rfl, rfl, ⟨_, rfl⟩, ⟨_, rfl⟩⟩
  · unfold inRangeCall
    rw [hconv]
    by_cases h1 : n < lower
    · simp only [if_pos h1]
      constructor
      · intro h; cases h
      · intro h; omega
    · by_cases h2 : upper ≤ n
      · simp only [if_neg h1, if_pos h2]
        constructor
        · intro h; cases h
        · intro h; omega
      · simp only [if_neg h1, if_neg h2]
        constructor
        · intro _; omega
        · intro _; trivial
  · intro h1
    unfold inRangeCall
    rw [hconv]
    simp only [if_pos h1]
  · intro h1 h2
    unfold inRangeCall
    rw [hconv]
    have h3 : ¬ n < lower := by omega
    simp only [if_neg h3, if_pos h2]

/-- C5 witness: the half-open characterisation instantiated at
`in_range(0, 10)` with the `number` converter on the value 3. -/
theorem inRange_halfOpen_witness :
    inRangeCall 0 10 number (.int 3) = .ok 3 ∧
    inRangeCall 0 10 number (.int 0) = .ok 0 ∧
    (∃ e, inRangeCall 0 10 number (.int 10) = .error e) := by
  have h := inRange_halfOpen 0 10 number (.int 3) 3 rfl
  exact ⟨h.1.mpr (by omega), h.2.2.2.1, h.2.2.2.2.2.1⟩

/-- C6: `smart_boolean` converts native booleans and the values
`None`, 0, 1 through `bool()`; maps the case-insensitive string forms
`"true"`, `"t"`, `"1"` to True and `"false"`, `"f"`, `"0"`, `""` to
False; and fails on every other input, in particular `"T"` gives True,
`""` and `"false"` give False, and `None` gives False. -/
theorem smart_boolean_spec :
    (∀ b, smart_boolean (.bool b) = .ok (.bool b)) ∧
    smart_boolean .none = .ok (.bool false) ∧
    smart_boolean (.int 0) = .ok (.bool false) ∧
    smart_boolean (.int 1) = .ok (.bool true) ∧
    (∀ s, (pyLower s = "true" ∨ pyLower s = "t" ∨ pyLower s = "1") →
      smart_boolean (.str s) = .ok (.bool true)) ∧
    (∀ s, (pyLower s = "false" ∨ pyLower s = "f" ∨ pyLower s = "0" ∨ pyLower s = "") →
      smart_boolean (.str s) = .ok (.bool false)) ∧
    (∀ s, ¬(pyLower s = "true" ∨ pyLower s = "t" ∨ pyLower s = "1") →
      ¬(pyLower s = "false" ∨ pyLower s = "f" ∨ pyLower s = "0" ∨ pyLower s = "") →
      ∃ e, smart_boolean (.str s) = .error e) ∧
    (∀ n : Int, n ≠ 0 → n ≠ 1 → ∃ e, smart_boolean (.int n) = .error e) ∧
    (∀ xs, ∃ e, smart_boolean (.list xs) = .error e) ∧
    (∀ xs, ∃ e, smart_boolean (.tuple xs) = .error e) ∧
    (∀ d, ∃ e, smart_boolean (.dict d) = .error e) ∧
    smart_boolean (.str "T") = .ok (.bool true) ∧
    smart_boolean (.str "") = .ok (.bool false) ∧
    smart_boolean (.str "false") = .ok (.bool false) ∧
    smart_boolean .none = .ok (.bool false) := by
  refine ⟨fun b => rfl, rfl, rfl, rfl, ?_, ?_, ?_, ?_,
    fun xs => ⟨_, rfl⟩, fun xs => ⟨_, rfl⟩, fun d => ⟨_, rfl⟩, rfl, rfl, rfl, rfl⟩
  · intro s h
    simp only [smart_boolean, if_pos h]
  · intro s h
    have h1 : ¬(pyLower s = "true" ∨ pyLower s = "t" ∨ pyLower s = "1") := by
      rcases h with h | h | h | h <;> rw [h] <;> decide
    simp only [smart_boolean, if_neg h1, if_pos h]
  · intro s h1 h2
    simp only [smart_boolean, if_neg h1, if_neg h2]
    exact ⟨_, rfl⟩
  · intro n h0 h1
    simp only [smart_boolean, if_neg h1, if_neg h0]
    exact ⟨_, rfl⟩

/-- C6 witness: the characterisation applied at the claim's four
concrete inputs plus a failing one. -/
theorem smart_boolean_spec_witness :
    smart_boolean (.str "T") = .ok (.bool true) ∧
    smart_boolean (.str "") = .ok (.bool false) ∧
    smart_boolean (.str "false") = .ok (.bool false) ∧
    smart_boolean .none = .ok (.bool false) ∧
    (∃ e, smart_boolean (.str "pancake") = .error e) ∧
    (∃ e, smart_boolean (.int 7) = .error e) := by
  obtain ⟨_, _, _, _, htrue, hfalse, hbad, hint, _⟩ := smart_boolean_spec
  exact ⟨htrue "T" (by decide), hfalse "" (by decide), hfalse "false" (by decide),
    smart_boolean_spec.2.1, hbad "pancake" (by decide) (by decide),
    hint 7 (by decide) (by decide)⟩

/-- C7: `introspect.takes_kwargs` / `takes_kargs` are documented to
report whether a function accepts arbitrary extra keyword/positional
arguments (the 0x08 / 0x04 code flags), but as written their bodies
read the undefined name `api_function`, so every call raises a
NameError instead — shown here against the documented behaviour
modelled from the spec. -/
theorem takes_kwargs_name_error (code : CodeObject) :
    takes_kwargs code =
      .error (.str ("NameError: name " ++ sq ++ "api_function" ++ sq ++ " is not defined")) ∧
    takes_kargs code =
      .error (.str ("NameError: name " ++ sq ++ "api_function" ++ sq ++ " is not defined")) ∧
    takes_kwargs_documented { co_varnames := [], co_argcount := 0, co_flags := 0x08 } = true ∧
    takes_kwargs { co_varnames := [], co_argcount := 0, co_flags := 0x08 } ≠
      .ok (takes_kwargs_documented { co_varnames := [], co_argcount := 0, co_flags := 0x08 }) ∧
    takes_kargs_documented { co_varnames := [], co_argcount := 0, co_flags := 0x04 } = true ∧
    takes_kargs { co_varnames := [], co_argcount := 0, co_flags := 0x04 } ≠
      .ok (takes_kargs_documented { co_varnames := [], co_argcount := 0, co_flags := 0x04 }) := by
  refine ⟨rfl, rfl, by decide, ?_, by decide, ?_⟩ <;> intro h <;> cases h

/-- C8: `multiple` wraps any non-list value into a one-element list
and passes lists through unchanged, hence is idempotent and never
double-wraps; `delimited_list` splits a string on its configured
delimiter, passes lists and tuples through unchanged, and is
idempotent on its own output. -/
theorem multiple_delimited_idempotent :
    (∀ v, multiple (multiple v) = multiple v) ∧
    (∀ xs, multiple (.list xs) = .list xs) ∧
    (∀ v, v.isList = false → multiple v = .list [v]) ∧
    (∀ d s, delimited_list d (.str s) = .ok (.list ((pySplit d s).map Value.str))) ∧
    (∀ d xs, delimited_list d (.list xs) = .ok (.list xs)) ∧
    (∀ d xs, delimited_list d (.tuple xs) = .ok (.tuple xs)) ∧
    (∀ d v w, delimited_list d v = .ok w → delimited_list d w = .ok w) := by
  refine ⟨?_, fun xs => rfl, ?_, fun d s => rfl, fun d xs => rfl, fun d xs => rfl, ?_⟩
  · intro v
    cases v <;> rfl
  · intro v h
    cases v <;> first | rfl | cases h
  · intro d v w h
    cases v with
    | str s => injection h with h'; rw [← h']; rfl
    | list xs => injection h with h'; rw [← h']; rfl
    | tuple xs => injection h with h'; rw [← h']; rfl
    | none => cases h
    | bool b => cases h
    | int n => cases h
    | dict dd => cases h

/-- C8 witness: idempotence evaluated on concrete inputs. -/
theorem multiple_delimited_idempotent_witness :
    multiple (multiple (.str "value")) = multiple (.str "value") ∧
    multiple (.list [.str "a", .str "b"]) = .list [.str "a", .str "b"] ∧
    delimited_list "," (.str "a,b") = .ok (.list [.str "a", .str "b"]) ∧
    delimited_list "," (.list [.str "a", .str "b"]) = .ok (.list [.str "a", .str "b"]) := by
  obtain ⟨h1, h2, _, h4, h5, _, hidem⟩ := multiple_delimited_idempotent
  refine ⟨h1 (.str "value"), h2 _, ?_, h5 "," _⟩
  have := h4 "," "a,b"
  simpa using this

theorem exists_pair_of_length_two {α : Type} (l : List α) (h : l.length = 2) :
    ∃ a b, l = [a, b] := by
  rcases l with _ | ⟨a, _ | ⟨b, _ | ⟨c, r⟩⟩⟩
  · simp at h
  · simp at h
  · exact ⟨a, b, rfl⟩
  · simp at h

theorem splitKeyValue_error (item : String) (h : (pySplit ":" item).length ≠ 2) :
    ∃ e, splitKeyValue item = .error e := by
  rcases hm : pySplit ":" item with _ | ⟨a, _ | ⟨b, _ | ⟨c, rest⟩⟩⟩
  · exact ⟨.str "ValueError: unpacking item.split requires exactly 2 values",
      by simp [splitKeyValue, hm]⟩
  · exact ⟨.str "ValueError: unpacking item.split requires exactly 2 values",
      by simp [splitKeyValue, hm]⟩
  · rw [hm] at h; simp at h
  · exact ⟨.str "ValueError: unpacking item.split requires exactly 2 values",
      by simp [splitKeyValue, hm]⟩

theorem splitKeyValue_ok (item k v : String) (h : pySplit ":" item = [k, v]) :
    splitKeyValue item = .ok (k, v) := by
  simp [splitKeyValue, h]

theorem inlineItems_error (l : List String) (h : ∃ item ∈ l, (pySplit ":" item).length ≠ 2) :
    ∃ e, inlineItems l = .error e := by
  induction l with
  | nil => rcases h with ⟨item, hm, _⟩; cases hm
  | cons hd tl ih =>
    by_cases hh : (pySplit ":" hd).length = 2
    · obtain ⟨k, v, hkv⟩ := exists_pair_of_length_two _ hh
      rcases h with ⟨item, hm, hlen⟩
      rcases List.mem_cons.mp hm with rfl | hm
      · exact absurd hh hlen
      · obtain ⟨e, he⟩ := ih ⟨item, hm, hlen⟩
        exact ⟨e, by simp [inlineItems, splitKeyValue_ok hd k v hkv, he]⟩
    · obtain ⟨e, he⟩ := splitKeyValue_error hd hh
      exact ⟨e, by simp [inlineItems, he]⟩

theorem inlineItems_ok (l : List String) (h : ∀ item ∈ l, (pySplit ":" item).length = 2) :
    ∃ pairs, inlineItems l = .ok pairs ∧
      ∀ item ∈ l, ∀ k v, pySplit ":" item = [k, v] → (k, v) ∈ pairs := by
  induction l with
  | nil => exact ⟨[], rfl, by simp⟩
  | cons hd tl ih =>
    obtain ⟨k, v, hkv⟩ := exists_pair_of_length_two _ (h hd (by simp))
    obtain ⟨pairs, hp, hmem⟩ := ih (fun item hm => h item (by simp [hm]))
    refine ⟨(k, v) :: pairs, by simp [inlineItems, splitKeyValue_ok hd k v hkv, hp], ?_⟩
    intro item hm k' v' hkv'
    rcases List.mem_cons.mp hm with rfl | hm
    · rw [hkv] at hkv'
      simp only [List.cons.injEq, and_true] at hkv'
      obtain ⟨rfl, rfl⟩ := hkv'
      exact List.mem_cons_self _ _
    · exact List.mem_cons_of_mem _ (hmem item hm k' v' hkv')

theorem inlineBuild_lookup_notmem (pairs : List (String × String)) (acc : List (String × Value))
    (k : String) (h : ∀ kv ∈ pairs, pyStrip kv.1 ≠ k) :
    dlookup k (pairs.foldl (fun acc kv => dinsert (pyStrip kv.1) (.str (pyStrip kv.2)) acc) acc) =
      dlookup k acc := by
  induction pairs generalizing acc with
  | nil => rfl
  | cons hd tl ih =>
    rw [List.foldl_cons, ih _ (fun kv hm => h kv (List.mem_cons_of_mem _ hm))]
    exact dlookup_dinsert_ne k (pyStrip hd.1) (fun he => h hd (by simp) he.symm) _ acc

theorem inlineBuild_lookup (pairs : List (String × String)) (acc : List (String × Value))
    (hnd : (pairs.map (fun kv => pyStrip kv.1)).Nodup) :
    ∀ kv ∈ pairs,
      dlookup (pyStrip kv.1)
        (pairs.foldl (fun acc kv => dinsert (pyStrip kv.1) (.str (pyStrip kv.2)) acc) acc) =
      some (.str (pyStrip kv.2)) := by
  induction pairs generalizing acc with
  | nil => intro kv hm; cases hm
  | cons hd tl ih =>
    rw [List.map_cons] at hnd
    intro kv hm
    rw [List.foldl_cons]
    rcases List.mem_cons.mp hm with rfl | hm
    · have hnotin : pyStrip kv.1 ∉ tl.map (fun p => pyStrip p.1) :=
        (List.nodup_cons.mp hnd).1
      have hkey : ∀ p ∈ tl, pyStrip p.1 ≠ pyStrip kv.1 := fun p hp heq =>
        hnotin (heq ▸ List.mem_map_of_mem _ hp)
      rw [inlineBuild_lookup_notmem tl _ _ hkey]
      exact dlookup_dinsert_self _ _ _
    · exact ih _ (List.nodup_cons.mp hnd).2 kv hm

/-- C10: any pipe-separated entry of the inline key-value coercion that
does not split on the colon into exactly two pieces makes the coercion
fail; when every entry has exactly one colon the result maps each key
to its value, both whitespace-stripped. -/
theorem inline_dictionary_entries (s : String) :
    ((∃ item ∈ pySplit "|" s, (pySplit ":" item).length ≠ 2) →
      ∃ e, inline_dictionary s = .error e) ∧
    ((∀ item ∈ pySplit "|" s, (pySplit ":" item).length = 2) →
      ∃ pairs, inlineItems (pySplit "|" s) = .ok pairs ∧
        inline_dictionary s = .ok (.dict (inlineBuild pairs)) ∧
        (∀ item ∈ pySplit "|" s, ∀ k v, pySplit ":" item = [k, v] → (k, v) ∈ pairs) ∧
        ((pairs.map (fun kv => pyStrip kv.1)).Nodup →
          ∀ kv ∈ pairs,
            dlookup (pyStrip kv.1) (inlineBuild pairs) = some (.str (pyStrip kv.2)))) := by
  constructor
  · intro h
    obtain ⟨e, he⟩ := inlineItems_error _ h
    exact ⟨e, by simp [inline_dictionary, he]⟩
  · intro h
    obtain ⟨pairs, hp, hmem⟩ := inlineItems_ok _ h
    exact ⟨pairs, hp, by simp [inline_dictionary, hp], hmem,
      fun hnd kv hm => inlineBuild_lookup pairs [] hnd kv hm⟩

/-- C10 witness: a colon-free entry fails; a well-formed two-entry
string builds the stripped mapping. -/
theorem inline_dictionary_entries_witness :
    (∃ e, inline_dictionary "1" = .error e) ∧
    inline_dictionary "a :1| b:2" = .ok (.dict [("a", .str "1"), ("b", .str "2")]) ∧
    dlookup "a" [("a", Value.str "1"), ("b", Value.str "2")] = some (.str "1") := by
  refine ⟨(inline_dictionary_entries "1").1 ⟨"1", by decide, by decide⟩, ?_⟩
  obtain ⟨pairs, hp, hdict, -, hlook⟩ := (inline_dictionary_entries "a :1| b:2").2 (by decide)
  have hpairs : pairs = [("a ", "1"), (" b", "2")] := by
    have h2 : inlineItems (pySplit "|" "a :1| b:2") = .ok [("a ", "1"), (" b", "2")] := rfl
    rw [h2] at hp
    exact (Except.ok.inj hp).symm
  subst hpairs
  exact ⟨hdict, hlook (by decide) ("a ", "1") (by decide)⟩

theorem mem_take_drop {α : Type} (l : List α) (t d : Nat) (a : α) :
    a ∈ (l.take t).drop d ↔ ∃ i : Nat, d ≤ i ∧ i < t ∧ l[i]? = some a := by
  rw [List.mem_iff_getElem?]
  constructor
  · rintro ⟨j, hj⟩
    rw [List.getElem?_drop, List.getElem?_take] at hj
    by_cases hlt : d + j < t
    · exact ⟨d + j, by omega, hlt, by rwa [if_pos hlt] at hj⟩
    · rw [if_neg hlt] at hj; cases hj
  · rintro ⟨i, hd, ht, hi⟩
    refine ⟨i - d, ?_⟩
    rw [List.getElem?_drop, List.getElem?_take]
    have : d + (i - d) = i := by omega
    rw [this, if_pos ht]
    exact hi

/-- C4 counterexample: a function whose single parameter `hug_timer`
names a process-wide directive and has no default.  The constructed
`directives` mapping claims the parameter, yet `required` still
contains it — `Interface.__init__` never removes directive-satisfied
names from `required`. -/
theorem required_keeps_directive_param :
    "hug_timer" ∈ interfaceDirectiveNames ["hug_timer"]
      { argNames := ["hug_timer"], numDefaults := 0, isMethod := false,
        annotationDirectives := [] } ∧
    "hug_timer" ∈ interfaceRequired
      { argNames := ["hug_timer"], numDefaults := 0, isMethod := false,
        annotationDirectives := [] } := by
  decide

/-- C4 (amended): after construction without a `parameters` override,
`required` is exactly the introspected parameter list minus the
trailing defaulted parameters minus a leading receiver parameter for a
bound method; directive-satisfied parameters are NOT removed (they are
instead injected during parameter gathering). -/
theorem interfaceRequired_mem (spec : FuncSpec) (n : String) :
    n ∈ interfaceRequired spec ↔
      ∃ i : Nat, (if spec.isMethod then 1 else 0) ≤ i ∧
        i < spec.argNames.length - spec.numDefaults ∧
        spec.argNames[i]? = some n := by
  unfold interfaceRequired
  by_cases hm : spec.isMethod
  · simp only [if_pos hm]
    exact mem_take_drop spec.argNames (spec.argNames.length - spec.numDefaults) 1 n
  · simp only [if_neg hm]
    have := mem_take_drop spec.argNames (spec.argNames.length - spec.numDefaults) 0 n
    rwa [List.drop_zero] at this

/-- C3 counterexample: a requirement whose conclusion is `False` — a
result that "is not True" — does NOT short-circuit: `check_requirements`
treats it as passing (`if conclusion and conclusion is not True` is
false for a falsy conclusion), and the call proceeds to invoke the
wrapped function, whose formatted result — not the formatted
requirement result — becomes the response body. -/
theorem requires_falsy_passes :
    check_requirements [Value.bool false] = Option.none ∧
    call { plainInterface with requires := [Value.bool false] }
        { params := [], range? := Option.none } [] =
      .ok { initial_response plainInterface with data := some (demoFormat (.str "ran")) } ∧
    demoFormat (.str "ran") ≠ demoFormat (.bool false) := by
  refine ⟨rfl, rfl, by decide⟩

/-- C3 (amended): the first requirement whose result is truthy and not
the `True` singleton short-circuits the HTTP invocation — its result is
formatted through `outputs` and becomes the response body, gathering,
validation and the wrapped function are skipped, and any requirements
after it are irrelevant; requirements returning `True` or any falsy
value are treated as passing. -/
theorem requires_short_circuit (i : HTTPInterface) (req : Request) (kwargs : Params)
    (pre post : List Value) (conclusion : Value)
    (hpre : ∀ c ∈ pre, truthy c = false ∨ c.isTrueSingleton = true)
    (hc : truthy conclusion = true) (hnc : conclusion.isTrueSingleton = false)
    (hreq : i.requires = pre ++ conclusion :: post) :
    check_requirements i.requires = some conclusion ∧
    call i req kwargs =
      .ok { initial_response i with data := some (i.outputs.format conclusion) } ∧
    (∀ rs : List Value, (∀ c ∈ rs, truthy c = false ∨ c.isTrueSingleton = true) →
      check_requirements rs = Option.none) := by
  have hpass : ∀ rs : List Value, (∀ c ∈ rs, truthy c = false ∨ c.isTrueSingleton = true) →
      check_requirements rs = Option.none := by
    intro rs hall
    induction rs with
    | nil => rfl
    | cons hd tl ih =>
      have hhd := hall hd (by simp)
      have : (truthy hd && !hd.isTrueSingleton) = false := by
        rcases hhd with h | h <;> simp [h]
      simp only [check_requirements, this, Bool.false_eq_true, if_false]
      exact ih (fun c hm => hall c (by simp [hm]))
  have hcheck0 : ∀ l : List Value, (∀ c ∈ l, truthy c = false ∨ c.isTrueSingleton = true) →
      check_requirements (l ++ conclusion :: post) = some conclusion := by
    intro l hl
    induction l with
    | nil =>
      simp only [List.nil_append, check_requirements, hc, hnc]
      simp
    | cons hd tl ih =>
      have hhd := hl hd (by simp)
      have hcond : (truthy hd && !hd.isTrueSingleton) = false := by
        rcases hhd with h | h <;> simp [h]
      simp only [List.cons_append, check_requirements, hcond, Bool.false_eq_true, if_false]
      exact ih (fun c hm => hl c (by simp [hm]))
  have hcheck : check_requirements i.requires = some conclusion := by
    rw [hreq]
    exact hcheck0 pre hpre
  refine ⟨hcheck, ?_, hpass⟩
  unfold call
  rw [hcheck]

/-- C3 witness: a passing `True` requirement followed by a truthy
non-True conclusion short-circuits with that conclusion formatted as
the body; a later requirement is present but irrelevant. -/
theorem requires_short_circuit_witness :
    check_requirements [Value.bool true, Value.str "unauthorized", Value.str "later"] =
      some (Value.str "unauthorized") ∧
    call { plainInterface with
        requires := [Value.bool true, Value.str "unauthorized", Value.str "later"] }
      { params := [], range? := Option.none } [] =
      .ok { initial_response plainInterface with
        data := some (demoFormat (.str "unauthorized")) } := by
  have h := requires_short_circuit
    { plainInterface with
      requires := [Value.bool true, Value.str "unauthorized", Value.str "later"] }
    { params := [], range? := Option.none } [] [Value.bool true] [Value.str "later"]
    (Value.str "unauthorized") (by decide) (by decide) (by decide) rfl
  exact ⟨h.1, h.2.1⟩

theorem dlookup_dinsert_of_present (k x : String) (w : α) (l : List (String × α)) (v : α)
    (hk : dlookup k l = some v) (hx : dlookup x l = Option.none) :
    dlookup x (dinsert k w l) = Option.none := by
  have hne : x ≠ k := fun he => by rw [he, hk] at hx; cases hx
  rw [dlookup_dinsert_ne x k hne w l]
  exact hx

/-- Without `raise_on_invalid`, the transformation loop always
completes, appends one error per failing present parameter (each keyed
by a parameter present in the incoming mapping), and never adds keys to
the parameter mapping. -/
theorem applyTransformations_ok_spec (ts : List (String × (Value → Except Value Value)))
    (params : Params) (errors : Errors) :
    ∃ params' delta,
      applyTransformations false ts params errors = .ok (params', errors ++ delta) ∧
      (∀ ke ∈ delta, dlookup ke.1 params ≠ Option.none) ∧
      (∀ r, dlookup r params = Option.none → dlookup r params' = Option.none) := by
  induction ts generalizing params errors with
  | nil =>
    exact ⟨params, [], by simp [applyTransformations], by simp, fun r hr => hr⟩
  | cons hd rest ih =>
    obtain ⟨k, h⟩ := hd
    cases hk : dlookup k params with
    | none =>
      obtain ⟨p', δ, happ, hδ, hpres⟩ := ih params errors
      exact ⟨p', δ, by simp only [applyTransformations, hk]; exact happ, hδ, hpres⟩
    | some v =>
      cases hv : h v with
      | ok v' =>
        obtain ⟨p', δ, happ, hδ, hpres⟩ := ih (dinsert k v' params) errors
        refine ⟨p', δ, by simp only [applyTransformations, hk, hv]; exact happ, ?_, ?_⟩
        · intro ke hke hnone
          exact hδ ke hke (dlookup_dinsert_of_present k ke.1 v' params v hk hnone)
        · intro r hr
          exact hpres r (dlookup_dinsert_of_present k r v' params v hk hr)
      | error e =>
        obtain ⟨p', δ, happ, hδ, hpres⟩ := ih params (errors ++ [(k, e)])
        refine ⟨p', (k, e) :: δ, ?_, ?_, hpres⟩
        · simp only [applyTransformations, hk, hv, if_neg (by simp : ¬false = true)]
          rw [happ, List.append_assoc]
          rfl
        · intro ke hke
          rcases List.mem_cons.mp hke with rfl | hke'
          · simp [hk]
          · exact hδ ke hke'

/-- Without `raise_on_invalid`, a failing transformation of a present
parameter is recorded in the error mapping under that parameter's name
(given distinct transformation keys and no prior error under the key). -/
theorem applyTransformations_records (ts : List (String × (Value → Except Value Value)))
    (params : Params) (errors : Errors) (k : String) (h : Value → Except Value Value)
    (v m : Value)
    (hnd : (ts.map Prod.fst).Nodup)
    (hacc : dlookup k errors = Option.none)
    (hmem : (k, h) ∈ ts) (hv : dlookup k params = some v) (hm : h v = .error m) :
    ∀ pe, applyTransformations false ts params errors = .ok pe → dlookup k pe.2 = some m := by
  induction ts generalizing params errors with
  | nil => cases hmem
  | cons hd rest ih =>
    obtain ⟨k0, h0⟩ := hd
    rw [List.map_cons] at hnd
    intro pe happ
    rcases List.mem_cons.mp hmem with heq | hmem'
    · obtain ⟨rfl, rfl⟩ := Prod.mk.injEq .. ▸ heq
      simp only [applyTransformations, hv, hm, if_neg (by simp : ¬false = true)] at happ
      obtain ⟨p', δ, happ', -, -⟩ := applyTransformations_ok_spec rest params (errors ++ [(k, m)])
      rw [happ'] at happ
      obtain rfl := (Except.ok.inj happ).symm
      simp only [List.append_assoc]
      rw [dlookup_append, hacc]
      simp [dlookup_append, dlookup]
    · have hkmem : k ∈ List.map Prod.fst rest := by
        have hmm := List.mem_map_of_mem Prod.fst hmem'
        simpa using hmm
      have hkne : k ≠ k0 := fun he => (List.nodup_cons.mp hnd).1 (he ▸ hkmem)
      cases hk0 : dlookup k0 params with
      | none =>
        simp only [applyTransformations, hk0] at happ
        exact ih params errors (List.nodup_cons.mp hnd).2 hacc hmem' hv pe happ
      | some v0 =>
        cases hv0 : h0 v0 with
        | ok v0' =>
          simp only [applyTransformations, hk0, hv0] at happ
          have hv' : dlookup k (dinsert k0 v0' params) = some v := by
            rw [dlookup_dinsert_ne k k0 hkne]
            exact hv
          exact ih (dinsert k0 v0' params) errors (List.nodup_cons.mp hnd).2 hacc hmem' hv' pe happ
        | error e0 =>
          simp only [applyTransformations, hk0, hv0, if_neg (by simp : ¬false = true)] at happ
          have hacc' : dlookup k (errors ++ [(k0, e0)]) = Option.none := by
            rw [dlookup_append, hacc]
            simp [dlookup, hkne]
          exact ih params (errors ++ [(k0, e0)]) (List.nodup_cons.mp hnd).2 hacc' hmem' hv pe happ

/-- With `raise_on_invalid`, the first failing transformation after a
successful prefix aborts the whole loop with that failure, whatever
comes after it. -/
theorem applyTransformations_raise_first
    (pre : List (String × (Value → Except Value Value)))
    (k : String) (h : Value → Except Value Value)
    (post : List (String × (Value → Except Value Value)))
    (params p1 : Params) (v m : Value)
    (hpre : applyTransformations true pre params [] = .ok (p1, []))
    (hv : dlookup k p1 = some v) (hm : h v = .error m) :
    applyTransformations true (pre ++ (k, h) :: post) params [] = .error m := by
  induction pre generalizing params with
  | nil =>
    obtain ⟨rfl, -⟩ := Prod.mk.injEq .. ▸ (Except.ok.inj hpre)
    simp only [List.nil_append, applyTransformations, hv, hm]
    simp
  | cons hd tl ih =>
    obtain ⟨k0, h0⟩ := hd
    cases hk0 : dlookup k0 params with
    | none =>
      simp only [applyTransformations, hk0] at hpre ⊢
      exact ih params hpre
    | some v0 =>
      cases hv0 : h0 v0 with
      | ok v0' =>
        simp only [applyTransformations, hk0, hv0] at hpre ⊢
        exact ih (dinsert k0 v0' params) hpre
      | error e0 =>
        simp only [applyTransformations, hk0, hv0] at hpre
        simp at hpre

/-- C1: without `raise_on_invalid`, `HTTP.validate` never raises and
aggregates a keyed error entry for every parameter present in the
gathered input whose coercion fails — no fail-fast short-circuit; with
`raise_on_invalid`, the first coercion failure propagates immediately
as an exception. -/
theorem validate_aggregates (ts : List (String × (Value → Except Value Value)))
    (required : List String) (vf : Option (Params → Errors)) (params : Params)
    (hnd : (ts.map Prod.fst).Nodup) :
    (∃ pe, validate false ts required vf params = .ok pe) ∧
    (∀ k h v m pe, (k, h) ∈ ts → dlookup k params = some v → h v = .error m →
      validate false ts required vf params = .ok pe → dlookup k pe.2 = some m) ∧
    (∀ pre k h post p1 v m, ts = pre ++ (k, h) :: post →
      applyTransformations true pre params [] = .ok (p1, []) →
      dlookup k p1 = some v → h v = .error m →
      validate true ts required vf params = .error m) := by
  refine ⟨?_, ?_, ?_⟩
  · obtain ⟨p', δ, happ, -, -⟩ := applyTransformations_ok_spec ts params []
    simp only [validate, happ]
    split
    · cases vf with
      | none => exact ⟨_, rfl⟩
      | some f => exact ⟨_, rfl⟩
    · exact ⟨_, rfl⟩
  · intro k h v m pe hmem hv hm hval
    obtain ⟨p', δ, happ, -, -⟩ := applyTransformations_ok_spec ts params []
    have hrec := applyTransformations_records ts params [] k h v m hnd rfl hmem hv hm
      (p', [] ++ δ) happ
    simp only [List.nil_append] at hrec happ
    cases hδ : δ with
    | nil => rw [hδ] at hrec; cases hrec
    | cons d δ' =>
      rw [hδ] at happ hrec
      have hval2 : validate false ts required vf params =
          .ok (p', (d :: δ') ++ (required.filter (fun r => (dlookup r p').isNone)).map
            (fun r => (r, Value.str "Required parameter not supplied"))) := by
        simp only [validate, happ, List.cons_append, List.isEmpty_cons, Bool.false_eq_true,
          if_false]
      rw [hval2] at hval
      obtain rfl := (Except.ok.inj hval).symm
      show dlookup k ((d :: δ') ++ _) = some m
      rw [dlookup_append, hrec]
      rfl
  · intro pre k h post p1 v m hts hpre hv hm
    subst hts
    have := applyTransformations_raise_first pre k h post params p1 v m hpre hv hm
    simp only [validate, this]

/-- C1 witness: two parameters both failing their smart-boolean
coercion are both reported, each under its own name. -/
theorem validate_aggregates_witness :
    ∃ pe, validate false [("a", smart_boolean), ("b", smart_boolean)] [] Option.none
        [("a", Value.str "xx"), ("b", Value.str "yy")] = .ok pe ∧
      dlookup "a" pe.2 =
        some (Value.str "KeyError: Invalid value passed in for true/false field") ∧
      dlookup "b" pe.2 =
        some (Value.str "KeyError: Invalid value passed in for true/false field") := by
  obtain ⟨h1, h2, -⟩ := validate_aggregates [("a", smart_boolean), ("b", smart_boolean)] []
    Option.none [("a", Value.str "xx"), ("b", Value.str "yy")] (by decide)
  obtain ⟨pe, hpe⟩ := h1
  refine ⟨pe, hpe, ?_, ?_⟩
  · exact h2 "a" smart_boolean (Value.str "xx") _ pe (List.mem_cons_self _ _) rfl rfl hpe
  · exact h2 "b" smart_boolean (Value.str "yy") _ pe
      (List.mem_cons_of_mem _ (List.mem_cons_self _ _)) rfl rfl hpe

/-- C2: a required parameter absent from the gathered input yields an
error entry keyed by exactly that parameter with the fixed message
"Required parameter not supplied"; end to end, `echo(text)` called
without `text` answers 400 Bad Request with body
`{'errors': {'text': 'Required parameter not supplied'}}` handed to
the output formatter, and the wrapped function (arbitrary here) is
never consulted. -/
theorem missing_required_parameter
    (ts : List (String × (Value → Except Value Value)))
    (required : List String) (vf : Option (Params → Errors)) (params : Params)
    (r : String) (hr : r ∈ required) (habs : dlookup r params = Option.none) :
    (∀ pe, validate false ts required vf params = .ok pe →
      dlookup r pe.2 = some (Value.str "Required parameter not supplied")) ∧
    (∀ (F : Formatter) (f : Params → Value) (h : Value → Except Value Value),
      call (echoInterface F f h) { params := [], range? := Option.none } [] =
        .ok { status := "400 Bad Request", content_type := F.contentType, headers := [],
              data := some (F.format (.dict [("errors",
                .dict [("text", .str "Required parameter not supplied")])])),
              stream := Option.none, stream_len := Option.none,
              content_range := Option.none, closed_source := false }) := by
  constructor
  · intro pe hval
    obtain ⟨p', δ, happ, hδpresent, hpres⟩ := applyTransformations_ok_spec ts params []
    simp only [List.nil_append] at happ
    have hδr : dlookup r δ = Option.none := by
      apply dlookup_eq_none_of_forall
      intro ke hke heq
      apply hδpresent ke hke
      rw [heq]
      exact habs
    have hmiss : dlookup r ((required.filter (fun x => (dlookup x p').isNone)).map
        (fun x => (x, Value.str "Required parameter not supplied"))) =
        some (Value.str "Required parameter not supplied") := by
      apply dlookup_map_const
      rw [List.mem_filter]
      exact ⟨hr, by simp [hpres r habs]⟩
    have hmiss_ne : ((required.filter (fun x => (dlookup x p').isNone)).map
        (fun x => (x, Value.str "Required parameter not supplied"))) ≠ [] := by
      intro h0
      rw [h0] at hmiss
      cases hmiss
    have hEmpty : (δ ++ (required.filter (fun x => (dlookup x p').isNone)).map
        (fun x => (x, Value.str "Required parameter not supplied"))).isEmpty = false := by
      cases δ with
      | nil =>
        cases hmm : (required.filter (fun x => (dlookup x p').isNone)).map
            (fun x => (x, Value.str "Required parameter not supplied")) with
        | nil => exact absurd hmm hmiss_ne
        | cons a l => simp [hmm]
      | cons a l => simp
    have hval2 : validate false ts required vf params =
        .ok (p', δ ++ (required.filter (fun x => (dlookup x p').isNone)).map
          (fun x => (x, Value.str "Required parameter not supplied"))) := by
      simp only [validate, happ, hEmpty, Bool.false_eq_true, if_false]
    rw [hval2] at hval
    obtain rfl := (Except.ok.inj hval).symm
    show dlookup r (δ ++ _) = some _
    rw [dlookup_append, hδr, hmiss]
    rfl
  · intro F f h
    rfl

/-- C2 witness: the echo interface with the smart-boolean coercion and
an arbitrary body, called with empty input. -/
theorem missing_required_parameter_witness :
    validate false [("text", smart_boolean)] ["text"] Option.none [] =
      .ok ([], [("text", Value.str "Required parameter not supplied")]) ∧
    dlookup "text" [("text", Value.str "Required parameter not supplied")] =
      some (Value.str "Required parameter not supplied") ∧
    call (echoInterface demoFormatter (fun _ => Value.str "hi") smart_boolean)
        { params := [], range? := Option.none } [] =
      .ok { status := "400 Bad Request", content_type := "application/json", headers := [],
            data := some (demoFormat (.dict [("errors",
              .dict [("text", .str "Required parameter not supplied")])])),
            stream := Option.none, stream_len := Option.none, content_range := Option.none,
            closed_source := false } := by
  have h := missing_required_parameter [("text", smart_boolean)] ["text"] Option.none []
    "text" (by simp) rfl
  exact ⟨rfl, h.1 ([], [("text", Value.str "Required parameter not supplied")]) rfl,
    h.2 demoFormatter (fun _ => Value.str "hi") smart_boolean⟩

theorem respond_payload_range (i : HTTPInterface) (resp : Response) (content : List Nat)
    (size : Nat) (start stop : Int)
    (hsz : size ≠ 0) (hneg : ¬ stop < 0) (hles : stop ≤ (size : Int)) :
    respond_payload i resp (some (start, stop)) (.stream content (some size)) =
      { resp with
        data := some (.bytes (fileRead content start (stop - start + 1))),
        status := "206 Partial Content",
        content_range := some (start, stop, size), closed_source := true } := by
  simp only [respond_payload, if_pos hsz, if_neg hneg, min_eq_left hles]

/-- C9: a formatted payload that is a file-backed readable stream of
derivable nonzero size, requested with a byte range
`0 ≤ start ≤ stop < size`, is answered with exactly the
`stop - start + 1` bytes starting at offset `start`, a 206
Partial Content status, a content-range header `(start, stop, size)`,
and the source stream closed. -/
theorem byte_range_request (i : HTTPInterface) (req : Request) (kwargs : Params)
    (p' : Params) (content : List Nat) (size : Nat) (start stop : Int)
    (hreq : check_requirements i.requires = Option.none)
    (hval : validate i.raise_on_invalid i.input_transformations i.required i.validate_function
      (gather_parameters i req kwargs) = .ok (p', []))
    (hfmt : i.outputs.format (transform_data i (i.function (filtered_parameters i p'))) =
      .stream content (some size))
    (hrange : req.range? = some (start, stop))
    (hsize : content.length = size)
    (h0 : 0 ≤ start) (hse : start ≤ stop) (hes : stop < (size : Int)) :
    call i req kwargs = .ok
      { status := "206 Partial Content", content_type := i.outputs.contentType,
        headers := i.response_headers,
        data := some (.bytes ((content.drop start.toNat).take (stop - start + 1).toNat)),
        stream := Option.none, stream_len := Option.none,
        content_range := some (start, stop, size), closed_source := true } ∧
    ((content.drop start.toNat).take (stop - start + 1).toNat).length =
      (stop - start + 1).toNat := by
  have hsz : size ≠ 0 := by omega
  have hneg : ¬ stop < 0 := by omega
  have hlen : ¬ (stop - start + 1 < 0) := by omega
  have hfr : fileRead content start (stop - start + 1) =
      (content.drop start.toNat).take (stop - start + 1).toNat := by
    simp only [fileRead, if_neg hlen]
  constructor
  · have hcall : call i req kwargs = .ok (respond_payload i (initial_response i) req.range?
        (i.outputs.format (transform_data i (i.function (filtered_parameters i p'))))) := by
      unfold call
      rw [hreq, hval]
      rfl
    rw [hcall, hfmt, hrange,
      respond_payload_range i (initial_response i) content size start stop hsz hneg
        (le_of_lt hes), hfr]
    rfl
  · rw [List.length_take, List.length_drop, hsize]
    omega

/-- C9 witness: range (10, 19) of a size-100 stream yields exactly the
10 bytes at offsets 10 through 19 with content-range (10, 19, 100). -/
theorem byte_range_request_witness :
    call { plainInterface with outputs := streamFormatter }
        { params := [], range? := some (10, 19) } [] =
      .ok { status := "206 Partial Content", content_type := "application/octet-stream",
            headers := [],
            data := some (.bytes (((List.range 100).drop 10).take 10)),
            stream := Option.none, stream_len := Option.none,
            content_range := some (10, 19, 100), closed_source := true } ∧
    (((List.range 100).drop 10).take 10).length = 10 := by
  have h := byte_range_request { plainInterface with outputs := streamFormatter }
    { params := [], range? := some (10, 19) } [] [] (List.range 100) 100 10 19
    rfl rfl rfl rfl (by simp) (by omega) (by omega) (by omega)
  exact ⟨h.1, h.2⟩

end Hug
